import Mathlib

/-
Verification of the safe PROJ wrapper (src/src/proj.rs).

The repository is a thin safe wrapper around the native PROJ geodesy
library.  The logic of the wrapper itself — construction, per-call error-state
reset, single-point and batch transforms, area-of-use handling — is
embedded here directly from the Rust source.  The native kernel
(`proj_create`, `proj_create_crs_to_crs`, `proj_normalize_for_visualization`,
`proj_trans`, `proj_errno_string`) is an external collaborator whose code is
not part of this repository; it is modelled as explicit function parameters
resp. abstract transform data, and its per-handle `errno` cell is made an
explicit field of the embedded engine state.

Coordinates: the wrapper is generic over `U: Float` and passes values
through `to_f64`/`from` unchanged at `f64`; scalars are embedded as `Rat`
(an exact carrier — the wrapper itself performs no arithmetic on them).
`PJ_COORD` is a C union whose `lp` (lam/phi) and `xy` (x/y) members share
the same two doubles, so both are embedded as a pair.
-/

namespace RustProj

/-- Transform direction: PJ_DIRECTION_PJ_FWD / PJ_DIRECTION_PJ_INV. -/
inductive Direction where
  | fwd
  | inv
deriving DecidableEq

/-- Modelled from the spec: the native transform object behind a `*mut PJconsts`
handle.  Per §5 of the spec the transform of each point is stateless given the
fixed configuration of the engine, so the handle is a pure function from a
direction and a coordinate pair to a result pair together with an error
code (`0` = success), the code that `proj_trans` deposits in the errno cell
of the handle on failure. -/
structure PJ where
  trans : Direction → Rat × Rat → (Rat × Rat) × Int

/-- Errors originating in PROJ (src/src/proj.rs lines 17–24): exactly two
variants, each carrying the looked-up error-message string. -/
inductive ProjError where
  | Projection (msg : String)
  | Conversion (msg : String)
deriving DecidableEq

/-- The bounding box of an area of use (src/src/proj.rs lines 30–35). -/
structure Area where
  north : Rat
  south : Rat
  east : Rat
  west : Rat
deriving DecidableEq

/-- Create a new Area (src/src/proj.rs lines 42–49). -/
def Area.new (west south east north : Rat) : Area :=
  ⟨north, south, east, west⟩

/-- Modelled from the spec: `proj_errno_string`, the error-message lookup of the external kernel — a pure function of the error code (wrapped by
`error_message` in src/src/proj.rs lines 59–62). -/
def error_message (code : Int) : String :=
  "proj error " ++ toString code

/-- A `PROJ` instance (src/src/proj.rs lines 75–79).  `c_proj` is the native
transform handle; `errno` is the transient per-handle error cell the native
library keeps behind that handle (read by `proj_errno`, cleared by
`proj_errno_reset`); `area` mirrors `area: Option<*mut PJ_AREA>` — the
outer `Option` is whether an area object exists at all, the inner one is
the bbox state of that object (`none` until `proj_area_set_bbox` runs). -/
structure Proj where
  c_proj : PJ
  errno : Int
  area : Option (Option Area)

/-- Rust `CString::new` fails exactly when the byte string contains an
interior NUL; NUL is a single byte in UTF-8, so checking characters is
equivalent. -/
def contains_nul (s : String) : Bool :=
  s.data.contains (Char.ofNat 0)

/-- Rust `CString::new`: `Some` iff no interior NUL byte. -/
def cstring_new (s : String) : Option String :=
  if contains_nul s then none else some s

/-- Outcome of running a Rust function that may panic: `.unwrap()` on an
`Err` aborts the call with a panic instead of returning. -/
inductive RunResult (α : Type) where
  | panicked (msg : String)
  | ret (a : α)

/-- The panic message produced by `Result::unwrap` on the `Err` of
`CString::new`. -/
def unwrap_panic_msg : String :=
  "called Result::unwrap on an Err value: NulError"

/-- Try to instantiate a new `PROJ` instance (src/src/proj.rs lines 98–113).
`CString::new(definition).unwrap()` panics on an interior NUL; otherwise the
definition is handed to the kernel function `proj_create` (the `create` parameter,
an external collaborator): a null handle yields `None`, else an engine with
`area: None` and a fresh (zero) errno cell. -/
def Proj.new (create : String → Option PJ) (definition : String) :
    RunResult (Option Proj) :=
  match cstring_new definition with
  | none => RunResult.panicked unwrap_panic_msg
  | some _ =>
    match create definition with
    | none => RunResult.ret none
    | some pjh => RunResult.ret (some ⟨pjh, 0, none⟩)

/-- Create a transformation between two known CRS
(src/src/proj.rs lines 156–181).  Both strings pass through
`CString::new(..).unwrap()` (panic on interior NUL); an area object is
created and its bbox set from the optional argument before resolution; the
kernel resolver `proj_create_crs_to_crs` (the `create_crs` parameter) may
return a null handle (`None`); on success the handle is replaced by
`proj_normalize_for_visualization` of it (the `normalize` parameter) and
the engine stores the area object. -/
def Proj.new_known_crs (create_crs : String → String → Option Area → Option PJ)
    (normalize : PJ → PJ) (from_crs to_crs : String) (area : Option Area) :
    RunResult (Option Proj) :=
  match cstring_new from_crs with
  | none => RunResult.panicked unwrap_panic_msg
  | some _ =>
    match cstring_new to_crs with
    | none => RunResult.panicked unwrap_panic_msg
    | some _ =>
      match create_crs from_crs to_crs area with
      | none => RunResult.ret none
      | some pjh => RunResult.ret (some ⟨normalize pjh, 0, some area⟩)

/-- Set the bounding box of the area of use (src/src/proj.rs lines 193–205):
`proj_area_set_bbox` is invoked only when `self.area` is `Some`; on an
engine holding no area object the method does nothing. -/
def Proj.area_set_bbox (p : Proj) (new_bbox : Area) : Proj :=
  match p.area with
  | none => p
  | some _ => ⟨p.c_proj, p.errno, some (some new_bbox)⟩

/-- A point, as `geo_types::Point` at `f64`. -/
structure Point where
  x : Rat
  y : Rat
deriving DecidableEq

/-- Project geodetic coordinates (src/src/proj.rs lines 222–257).
`proj_errno_reset` zeroes the errno cell of the handle, `proj_trans` runs the
kernel in the requested direction and deposits its nonzero error code in
the cell on failure, `proj_errno` reads the cell back; a zero read yields
`Ok` with the output pair, otherwise `Err(ProjError::Projection(message))`.
The pair returned here is (engine state after the call, call result) —
the Rust method mutates the errno cell through the raw handle in `&self`. -/
def Proj.project (p : Proj) (point : Point) (inverse : Bool) :
    Proj × Except ProjError Point :=
  let dir := if inverse then Direction.inv else Direction.fwd
  let coords := (point.x, point.y)
  let e0 : Int := 0
  let r := p.c_proj.trans dir coords
  let err := if r.2 = 0 then e0 else r.2
  let p2 : Proj := ⟨p.c_proj, err, p.area⟩
  let res : Except ProjError Point :=
    if err = 0 then Except.ok ⟨r.1.1, r.1.2⟩
    else Except.error (ProjError.Projection (error_message err))
  (p2, res)

/-- Convert projected coordinates (src/src/proj.rs lines 312–336):
identical to `project` but always `PJ_DIRECTION_PJ_FWD` and the failure
wraps the message in `ProjError::Conversion`. -/
def Proj.convert (p : Proj) (point : Point) :
    Proj × Except ProjError Point :=
  let coords := (point.x, point.y)
  let e0 : Int := 0
  let r := p.c_proj.trans Direction.fwd coords
  let err := if r.2 = 0 then e0 else r.2
  let p2 : Proj := ⟨p.c_proj, err, p.area⟩
  let res : Except ProjError Point :=
    if err = 0 then Except.ok ⟨r.1.1, r.1.2⟩
    else Except.error (ProjError.Conversion (error_message err))
  (p2, res)

/-- Modelled from the spec: `proj_trans_array`, the batch transform of the external kernel (§4.5: the same operation applied to every element in index
order; on the first element that fails the batch fails as a whole with
the error code of that element).  Returns the transformed list and the error
code (`0` = all succeeded); the wrapper reads the same code back from the
errno cell after the call. -/
def trans_array (pjh : PJ) (dir : Direction) :
    List (Rat × Rat) → List (Rat × Rat) × Int
  | [] => ([], 0)
  | c :: rest =>
    let r := pjh.trans dir c
    if r.2 = 0 then
      let rr := trans_array pjh dir rest
      (r.1 :: rr.1, rr.2)
    else (c :: rest, r.2)

/-- Convert a mutable slice of points (src/src/proj.rs lines 370–409).
The points are copied into a scratch `PJ_COORD` vector, errno is reset,
`proj_trans_array` runs forward over the scratch vector, and only when
both the returned code and the errno read back are zero is the original
slice overwritten element by element; on failure the slice is untouched
and `Err(ProjError::Projection(message))` is returned (the source really
uses the `Projection` variant here, not `Conversion`).  The triple is
(engine state after, final slice contents, call result). -/
def Proj.convert_array (p : Proj) (points : List Point) :
    Proj × List Point × Except ProjError Unit :=
  let pj := points.map fun pt => (pt.x, pt.y)
  let r := trans_array p.c_proj Direction.fwd pj
  let err := r.2
  let p2 : Proj := ⟨p.c_proj, err, p.area⟩
  let final := if err = 0 then r.1.map (fun c => Point.mk c.1 c.2) else points
  let res : Except ProjError Unit :=
    if err = 0 then Except.ok ()
    else Except.error (ProjError.Projection (error_message err))
  (p2, final, res)

/-- Project a slice of geodetic coordinates (src/src/proj.rs lines 437–482):
as `convert_array` but with the direction chosen by `inverse`. -/
def Proj.project_array (p : Proj) (points : List Point) (inverse : Bool) :
    Proj × List Point × Except ProjError Unit :=
  let dir := if inverse then Direction.inv else Direction.fwd
  let pj := points.map fun pt => (pt.x, pt.y)
  let r := trans_array p.c_proj dir pj
  let err := r.2
  let p2 : Proj := ⟨p.c_proj, err, p.area⟩
  let final := if err = 0 then r.1.map (fun c => Point.mk c.1 c.2) else points
  let res : Except ProjError Unit :=
    if err = 0 then Except.ok ()
    else Except.error (ProjError.Projection (error_message err))
  (p2, final, res)

/-- Concrete test kernel: fails with error code 5 exactly at the coordinate
pair (1, 1), otherwise swaps the coordinates and succeeds. -/
def tpj : PJ :=
  ⟨fun _ c => if c = ((1 : Rat), (1 : Rat)) then ((0, 0), 5) else ((c.2, c.1), 0)⟩

/-- Concrete engine over `tpj`, as produced by a successful `Proj.new`. -/
def tengine : Proj := ⟨tpj, 0, none⟩

/-- Concrete resolver for `Proj.new`: resolves only the string "good". -/
def tcreate : String → Option PJ :=
  fun s => if s = "good" then some tpj else none

/-- Concrete resolver for `Proj.new_known_crs`: resolves only the pair
("A", "B"). -/
def tcreate_crs : String → String → Option Area → Option PJ :=
  fun f t _ => if f = "A" then (if t = "B" then some tpj else none) else none

/-- Concrete axis normalization: swaps the coordinate order fed to the
underlying transform. -/
def tnormalize : PJ → PJ :=
  fun pjh => ⟨fun d c => pjh.trans d (c.2, c.1)⟩

/-- Concrete bounding box. -/
def tbbox : Area := Area.new 0 0 1 1

/-- A batch on which every element succeeds under `tpj`. -/
def tpts : List Point := [Point.mk 0 0, Point.mk 2 3]

/-- A batch whose only element fails under `tpj`. -/
def tptsbad : List Point := [Point.mk 1 1]

/-- A batch failing at index 0 under `tpj`. -/
def c3ptsA : List Point := [Point.mk 1 1, Point.mk 0 0]

/-- A batch failing at index 1 under `tpj`. -/
def c3ptsB : List Point := [Point.mk 0 0, Point.mk 1 1]

/-- A definition string with an interior NUL byte. -/
def nul_string : String := "a\x00b"

deriving instance DecidableEq for Except

/-- The batch transform succeeds exactly when the kernel succeeds on every
element. -/
theorem trans_array_snd_zero_iff (pjh : PJ) (d : Direction)
    (cs : List (Rat × Rat)) :
    (trans_array pjh d cs).2 = 0 ↔ ∀ c ∈ cs, (pjh.trans d c).2 = 0 := by
  induction cs with
  | nil => simp [trans_array]
  | cons c rest ih =>
    by_cases hc : (pjh.trans d c).2 = 0
    · simp [trans_array, hc, ih]
    · simp [trans_array, hc]

/-- On success the batch transform computes the output of the kernel for each
element, in order. -/
theorem trans_array_fst_of_zero (pjh : PJ) (d : Direction)
    (cs : List (Rat × Rat)) (h : (trans_array pjh d cs).2 = 0) :
    (trans_array pjh d cs).1 = cs.map fun c => (pjh.trans d c).1 := by
  induction cs with
  | nil => simp [trans_array]
  | cons c rest ih =>
    by_cases hc : (pjh.trans d c).2 = 0
    · simp only [trans_array, hc, if_pos] at h ⊢
      simp [ih h]
    · simp [trans_array, hc] at h

/-- The result component of a single `project` call, as a case split on the
error code of the kernel. -/
theorem project_snd_eq (p : Proj) (pt : Point) (inverse : Bool) :
    (p.project pt inverse).2 =
      if (p.c_proj.trans (if inverse then Direction.inv else Direction.fwd)
            (pt.x, pt.y)).2 = 0
      then Except.ok
        (Point.mk
          (p.c_proj.trans (if inverse then Direction.inv else Direction.fwd)
            (pt.x, pt.y)).1.1
          (p.c_proj.trans (if inverse then Direction.inv else Direction.fwd)
            (pt.x, pt.y)).1.2)
      else Except.error (ProjError.Projection (error_message
        (p.c_proj.trans (if inverse then Direction.inv else Direction.fwd)
          (pt.x, pt.y)).2)) := by
  by_cases hc : (p.c_proj.trans (if inverse then Direction.inv else Direction.fwd)
      (pt.x, pt.y)).2 = 0 <;>
    simp [Proj.project, hc]

/-- C1: error isolation per call.  `project` and `convert` reset the errno
cell before executing, so the result of any second call on an engine after
an arbitrary first call (whatever its outcome) equals the result of the
same call on a fresh engine — same handle, zero errno — built from the
same definition. -/
theorem call_results_isolated_from_prior_errors (pjh : PJ) (e : Int)
    (a : Option (Option Area)) (pt1 pt2 : Point) (i1 i2 : Bool) :
    ((((Proj.mk pjh e a).project pt1 i1).1.project pt2 i2).2
        = ((Proj.mk pjh 0 a).project pt2 i2).2
      ∧ (((Proj.mk pjh e a).project pt1 i1).1.convert pt2).2
        = ((Proj.mk pjh 0 a).convert pt2).2)
    ∧ ((((Proj.mk pjh e a).convert pt1).1.project pt2 i2).2
        = ((Proj.mk pjh 0 a).project pt2 i2).2
      ∧ (((Proj.mk pjh e a).convert pt1).1.convert pt2).2
        = ((Proj.mk pjh 0 a).convert pt2).2) :=
  ⟨⟨rfl, rfl⟩, ⟨rfl, rfl⟩⟩


/-- C2: batch equivalence.  `project_array` succeeds exactly when every
individual `project` of an element succeeds, and on success the i-th
element of the updated slice is the value `project` returns for the i-th
input; the slice keeps the input length. -/
theorem project_array_matches_pointwise_project (pjh : PJ) (e : Int)
    (a : Option (Option Area)) (pts : List Point) (inverse : Bool) :
    (((Proj.mk pjh e a).project_array pts inverse).2.2 = Except.ok () ↔
      ∀ pt ∈ pts, ∃ q, ((Proj.mk pjh e a).project pt inverse).2 = Except.ok q)
    ∧ (((Proj.mk pjh e a).project_array pts inverse).2.2 = Except.ok () →
      ((Proj.mk pjh e a).project_array pts inverse).2.1.length = pts.length
      ∧ ∀ (i : Nat) (h1 : i < pts.length)
          (h2 : i < ((Proj.mk pjh e a).project_array pts inverse).2.1.length),
          ((Proj.mk pjh e a).project (pts.get ⟨i, h1⟩) inverse).2
            = Except.ok
                (((Proj.mk pjh e a).project_array pts inverse).2.1.get ⟨i, h2⟩)) := by
  have hsucc : ((Proj.mk pjh e a).project_array pts inverse).2.2 = Except.ok ()
      ↔ (trans_array pjh (if inverse then Direction.inv else Direction.fwd)
          (pts.map fun pt => (pt.x, pt.y))).2 = 0 := by
    by_cases hc : (trans_array pjh (if inverse then Direction.inv else Direction.fwd)
        (pts.map fun pt => (pt.x, pt.y))).2 = 0 <;>
      simp [Proj.project_array, hc]
  have helem : ∀ pt ∈ pts,
      ((∃ q, ((Proj.mk pjh e a).project pt inverse).2 = Except.ok q) ↔
        (pjh.trans (if inverse then Direction.inv else Direction.fwd)
          (pt.x, pt.y)).2 = 0) := by
    intro pt _
    rw [project_snd_eq]
    by_cases hc : (pjh.trans (if inverse then Direction.inv else Direction.fwd)
        (pt.x, pt.y)).2 = 0 <;> simp [hc]
  constructor
  · rw [hsucc, trans_array_snd_zero_iff]
    constructor
    · intro h pt hpt
      rw [helem pt hpt]
      exact h (pt.x, pt.y) (List.mem_map_of_mem _ hpt)
    · intro h c hc
      rcases List.mem_map.mp hc with ⟨pt, hpt, heq⟩
      rw [← heq]
      rw [← helem pt hpt]
      exact h pt hpt
  · intro hok
    have hz := hsucc.mp hok
    have hfst := trans_array_fst_of_zero pjh
      (if inverse then Direction.inv else Direction.fwd)
      (pts.map fun pt => (pt.x, pt.y)) hz
    have hfinal : ((Proj.mk pjh e a).project_array pts inverse).2.1
        = (((pts.map fun pt => (pt.x, pt.y)).map
            fun c => (pjh.trans (if inverse then Direction.inv else Direction.fwd) c).1).map
              fun c => Point.mk c.1 c.2) := by
      simp only [Proj.project_array, hz, if_pos]
      rw [hfst]
    constructor
    · rw [hfinal]; simp
    · intro i h1 h2
      rw [project_snd_eq]
      have hmem : pts.get ⟨i, h1⟩ ∈ pts := List.get_mem pts i h1
      have hc : (pjh.trans (if inverse then Direction.inv else Direction.fwd)
          ((pts.get ⟨i, h1⟩).x, (pts.get ⟨i, h1⟩).y)).2 = 0 :=
        (trans_array_snd_zero_iff pjh _ _).mp hz ((pts.get ⟨i, h1⟩).x, (pts.get ⟨i, h1⟩).y)
          (List.mem_map_of_mem _ hmem)
      rw [if_pos hc]
      revert h2
      rw [hfinal]
      intro h2
      simp [List.get_eq_getElem, List.getElem_map]

/-- Witness for C2: on the concrete engine `tengine` the two-point batch
`tpts` succeeds, keeps its length, and its first element is exactly what a
single `project` of the first input returns. -/
theorem project_array_matches_pointwise_project_witness :
    (tengine.project_array tpts false).2.1.length = tpts.length
    ∧ (tengine.project (Point.mk 0 0) false).2
        = Except.ok ((tengine.project_array tpts false).2.1.get ⟨0, by decide⟩) := by
  have h := project_array_matches_pointwise_project tpj 0 none tpts false
  exact ⟨(h.2 rfl).1, (h.2 rfl).2 0 (by decide) (by decide)⟩

/-- C9: batch atomicity on failure.  When `project_array` or
`convert_array` returns an error, the input slice is left entirely
unmodified — the write-back into the slice happens only on the
all-success path. -/
theorem batch_failure_leaves_slice_unmodified (pjh : PJ) (e : Int)
    (a : Option (Option Area)) (pts : List Point) (inverse : Bool) :
    (∀ err, ((Proj.mk pjh e a).project_array pts inverse).2.2 = Except.error err →
      ((Proj.mk pjh e a).project_array pts inverse).2.1 = pts)
    ∧ (∀ err, ((Proj.mk pjh e a).convert_array pts).2.2 = Except.error err →
      ((Proj.mk pjh e a).convert_array pts).2.1 = pts) := by
  constructor
  · intro err herr
    by_cases hc : (trans_array pjh (if inverse then Direction.inv else Direction.fwd)
        (pts.map fun pt => (pt.x, pt.y))).2 = 0
    · simp [Proj.project_array, hc] at herr
    · simp [Proj.project_array, hc]
  · intro err herr
    by_cases hc : (trans_array pjh Direction.fwd
        (pts.map fun pt => (pt.x, pt.y))).2 = 0
    · simp [Proj.convert_array, hc] at herr
    · simp [Proj.convert_array, hc]

/-- Witness for C9: the concrete single-element batch `tptsbad` fails on
`tengine` under both batch operations and both leave the slice equal to
the input. -/
theorem batch_failure_leaves_slice_unmodified_witness :
    (tengine.project_array tptsbad false).2.1 = tptsbad
    ∧ (tengine.convert_array tptsbad).2.1 = tptsbad := by
  have h := batch_failure_leaves_slice_unmodified tpj 0 none tptsbad false
  exact ⟨h.1 (ProjError.Projection (error_message 5)) rfl,
    h.2 (ProjError.Projection (error_message 5)) rfl⟩

/-- Counterexample to C3 as stated: two concrete batches on the same
engine whose first failing element sits at index 0 resp. index 1 produce
exactly the same error value, so the returned error cannot report which
element caused the failure.  (Element (1, 1) fails individually, element
(0, 0) succeeds individually.) -/
theorem batch_error_identical_across_failing_indices :
    (tengine.project_array c3ptsA false).2.2
      = (tengine.project_array c3ptsB false).2.2
    ∧ (tengine.project_array c3ptsA false).2.2
      = Except.error (ProjError.Projection (error_message 5))
    ∧ (tengine.project (Point.mk 1 1) false).2
      = Except.error (ProjError.Projection (error_message 5))
    ∧ (tengine.project (Point.mk 0 0) false).2 = Except.ok (Point.mk 0 0) :=
  ⟨rfl, rfl, rfl, by decide⟩

/-- C3 amended: when a batch operation fails as a whole, the error it
returns is `ProjError::Projection` carrying only the message looked up
from the error code of the failing element (now held in the errno
cell); no element index is part of the error. -/
theorem batch_error_carries_code_message_only (pjh : PJ) (e : Int)
    (a : Option (Option Area)) (pts : List Point) (inverse : Bool) :
    (∀ err, ((Proj.mk pjh e a).project_array pts inverse).2.2 = Except.error err →
      ((Proj.mk pjh e a).project_array pts inverse).1.errno ≠ 0
      ∧ err = ProjError.Projection
          (error_message ((Proj.mk pjh e a).project_array pts inverse).1.errno))
    ∧ (∀ err, ((Proj.mk pjh e a).convert_array pts).2.2 = Except.error err →
      ((Proj.mk pjh e a).convert_array pts).1.errno ≠ 0
      ∧ err = ProjError.Projection
          (error_message ((Proj.mk pjh e a).convert_array pts).1.errno)) := by
  constructor
  · intro err herr
    by_cases hc : (trans_array pjh (if inverse then Direction.inv else Direction.fwd)
        (pts.map fun pt => (pt.x, pt.y))).2 = 0
    · simp [Proj.project_array, hc] at herr
    · simp [Proj.project_array, hc] at herr ⊢
      exact herr.symm
  · intro err herr
    by_cases hc : (trans_array pjh Direction.fwd
        (pts.map fun pt => (pt.x, pt.y))).2 = 0
    · simp [Proj.convert_array, hc] at herr
    · simp [Proj.convert_array, hc] at herr ⊢
      exact herr.symm

/-- Witness for amended C3: on the concrete failing batch `tptsbad` both
batch operations leave a nonzero code in the errno cell and return exactly
the message-only `Projection` error for it. -/
theorem batch_error_carries_code_message_only_witness :
    ((tengine.project_array tptsbad false).1.errno ≠ 0
      ∧ ProjError.Projection (error_message 5)
        = ProjError.Projection
            (error_message ((tengine.project_array tptsbad false).1.errno)))
    ∧ ((tengine.convert_array tptsbad).1.errno ≠ 0
      ∧ ProjError.Projection (error_message 5)
        = ProjError.Projection
            (error_message ((tengine.convert_array tptsbad).1.errno))) := by
  have h := batch_error_carries_code_message_only tpj 0 none tptsbad false
  exact ⟨h.1 (ProjError.Projection (error_message 5)) rfl,
    h.2 (ProjError.Projection (error_message 5)) rfl⟩

/-- Counterexample to C7 as stated: a concrete numeric domain failure is
surfaced as `ProjError::Projection` (resp. `ProjError::Conversion`)
carrying a message string — the error type of the code has no
`LatitudeOutOfRange` or `ProjectionSingularity` variant at all. -/
theorem numeric_error_surfaced_as_message_string :
    (tengine.project (Point.mk 1 1) false).2
      = Except.error (ProjError.Projection (error_message 5))
    ∧ (tengine.convert (Point.mk 1 1)).2
      = Except.error (ProjError.Conversion (error_message 5))
    ∧ ((tengine.project (Point.mk 1 1) false).1.project (Point.mk 0 0) false).2
      = Except.ok (Point.mk 0 0) :=
  ⟨rfl, rfl, by decide⟩

/-- C7 amended: numeric domain errors during a single transform call are
surfaced as the typed `ProjError` result (the `Projection` variant with
the message looked up from the error code of the kernel), never as a returned
coordinate, and they are recoverable — the engine behaves on every
subsequent call exactly like a fresh engine with the same handle. -/
theorem typed_errors_and_recoverability (pjh : PJ) (e : Int)
    (a : Option (Option Area)) (pt : Point) (inverse : Bool)
    (h : (pjh.trans (if inverse then Direction.inv else Direction.fwd)
        (pt.x, pt.y)).2 ≠ 0) :
    ((Proj.mk pjh e a).project pt inverse).2
      = Except.error (ProjError.Projection (error_message
          (pjh.trans (if inverse then Direction.inv else Direction.fwd)
            (pt.x, pt.y)).2))
    ∧ (∀ pt2 i2, (((Proj.mk pjh e a).project pt inverse).1.project pt2 i2).2
        = ((Proj.mk pjh 0 a).project pt2 i2).2)
    ∧ (∀ pt2, (((Proj.mk pjh e a).project pt inverse).1.convert pt2).2
        = ((Proj.mk pjh 0 a).convert pt2).2) := by
  refine ⟨?_, fun pt2 i2 => rfl, fun pt2 => rfl⟩
  rw [project_snd_eq]
  rw [if_neg h]

/-- Witness for amended C7: the concrete kernel fails with code 5 at
(1, 1); the call returns the typed `Projection` error and the next call
matches a fresh engine. -/
theorem typed_errors_and_recoverability_witness :
    (tengine.project (Point.mk 1 1) false).2
      = Except.error (ProjError.Projection (error_message
          (tpj.trans (if false then Direction.inv else Direction.fwd)
            ((Point.mk 1 1).x, (Point.mk 1 1).y)).2))
    ∧ ((tengine.project (Point.mk 1 1) false).1.project (Point.mk 0 0) false).2
      = ((Proj.mk tpj 0 none).project (Point.mk 0 0) false).2 := by
  have h := typed_errors_and_recoverability tpj 0 none (Point.mk 1 1) false (by decide)
  exact ⟨h.1, h.2.1 (Point.mk 0 0) false⟩

/-- Counterexample to C4 as stated: a malformed definition string with an
interior NUL byte — unresolvable by a resolver that resolves nothing —
makes construction panic in `CString::new(..).unwrap()` rather than
return the empty/failure result. -/
theorem malformed_nul_definition_panics_not_none :
    Proj.new (fun _ => none) nul_string = RunResult.panicked unwrap_panic_msg
    ∧ Proj.new (fun _ => none) nul_string ≠ RunResult.ret none := by
  have hn : contains_nul nul_string = true := by decide
  have he : Proj.new (fun _ => none) nul_string
      = RunResult.panicked unwrap_panic_msg := by
    unfold Proj.new
    rw [show cstring_new nul_string = none from by simp [cstring_new, hn]]
  refine ⟨he, ?_⟩
  rw [he]
  intro hcontra
  exact RunResult.noConfusion hcontra

/-- C4 amended: for every NUL-free definition string (or CRS pair), an
unresolvable input makes construction return the empty result, and a
returned engine is fully initialized — its handle is exactly what the
resolver produced (normalized for the CRS pair), its errno cell is fresh,
and its area reference is exactly as constructed.  Strings with an
interior NUL panic instead (C10). -/
theorem construction_failure_is_clean (create : String → Option PJ)
    (create_crs : String → String → Option Area → Option PJ) (normalize : PJ → PJ)
    (definition from_crs to_crs : String) (area : Option Area)
    (hd : contains_nul definition = false)
    (hf : contains_nul from_crs = false) (ht : contains_nul to_crs = false) :
    (Proj.new create definition = RunResult.ret none ↔ create definition = none)
    ∧ (∀ p, Proj.new create definition = RunResult.ret (some p) →
        create definition = some p.c_proj ∧ p.errno = 0 ∧ p.area = none)
    ∧ (Proj.new_known_crs create_crs normalize from_crs to_crs area = RunResult.ret none
        ↔ create_crs from_crs to_crs area = none)
    ∧ (∀ p, Proj.new_known_crs create_crs normalize from_crs to_crs area
          = RunResult.ret (some p) →
        (create_crs from_crs to_crs area).map normalize = some p.c_proj
        ∧ p.errno = 0 ∧ p.area = some area) := by
  have hcs : cstring_new definition = some definition := by simp [cstring_new, hd]
  have hcsf : cstring_new from_crs = some from_crs := by simp [cstring_new, hf]
  have hcst : cstring_new to_crs = some to_crs := by simp [cstring_new, ht]
  refine ⟨?_, ?_, ?_, ?_⟩
  · unfold Proj.new
    rw [hcs]
    cases hc : create definition with
    | none => simp
    | some pjh => simp
  · intro p hp
    unfold Proj.new at hp
    rw [hcs] at hp
    cases hc : create definition with
    | none => rw [hc] at hp; simp at hp
    | some pjh =>
      rw [hc] at hp
      injection hp with h1
      injection h1 with h2
      rw [← h2]
      simp [hc]
  · unfold Proj.new_known_crs
    rw [hcsf, hcst]
    cases hc : create_crs from_crs to_crs area with
    | none => simp
    | some pjh => simp
  · intro p hp
    unfold Proj.new_known_crs at hp
    rw [hcsf, hcst] at hp
    cases hc : create_crs from_crs to_crs area with
    | none => rw [hc] at hp; simp at hp
    | some pjh =>
      rw [hc] at hp
      injection hp with h1
      injection h1 with h2
      rw [← h2]
      simp [hc]

/-- Witness for amended C4: the concrete resolver rejects "bad" and
construction returns the empty result; it resolves "good" and the engine
returned holds exactly the resolved handle. -/
theorem construction_failure_is_clean_witness :
    Proj.new tcreate "bad" = RunResult.ret none
    ∧ tcreate "good" = some (Proj.mk tpj 0 none).c_proj := by
  have h1 := construction_failure_is_clean tcreate tcreate_crs tnormalize
    "bad" "A" "B" none (by decide) (by decide) (by decide)
  have h2 := construction_failure_is_clean tcreate tcreate_crs tnormalize
    "good" "A" "B" none (by decide) (by decide) (by decide)
  exact ⟨h1.1.mpr rfl, (h2.2.1 (Proj.mk tpj 0 none) rfl).1⟩

/-- C5: axis-order normalization is applied exactly when the engine is
built from two named CRS: the handle of an engine from `new_known_crs` is
the normalization of the resolved transform, while the handle of an engine
from `new` is exactly the resolved transform, untouched. -/
theorem axis_normalization_exactly_for_known_crs (create : String → Option PJ)
    (create_crs : String → String → Option Area → Option PJ) (normalize : PJ → PJ)
    (definition from_crs to_crs : String) (area : Option Area)
    (hd : contains_nul definition = false)
    (hf : contains_nul from_crs = false) (ht : contains_nul to_crs = false) :
    (∀ p, Proj.new create definition = RunResult.ret (some p) →
        create definition = some p.c_proj)
    ∧ (∀ p, Proj.new_known_crs create_crs normalize from_crs to_crs area
          = RunResult.ret (some p) →
        (create_crs from_crs to_crs area).map normalize = some p.c_proj) := by
  have hcs : cstring_new definition = some definition := by simp [cstring_new, hd]
  have hcsf : cstring_new from_crs = some from_crs := by simp [cstring_new, hf]
  have hcst : cstring_new to_crs = some to_crs := by simp [cstring_new, ht]
  refine ⟨?_, ?_⟩
  · intro p hp
    unfold Proj.new at hp
    rw [hcs] at hp
    cases hc : create definition with
    | none => rw [hc] at hp; simp at hp
    | some pjh =>
      rw [hc] at hp
      injection hp with h1
      injection h1 with h2
      rw [← h2]
  · intro p hp
    unfold Proj.new_known_crs at hp
    rw [hcsf, hcst] at hp
    cases hc : create_crs from_crs to_crs area with
    | none => rw [hc] at hp; simp at hp
    | some pjh =>
      rw [hc] at hp
      injection hp with h1
      injection h1 with h2
      rw [← h2]
      simp

/-- Witness for C5: with the concrete resolvers, the engine built from
the pair ("A", "B") holds the normalized handle, the engine built from
the string "good" holds the raw resolved handle. -/
theorem axis_normalization_exactly_for_known_crs_witness :
    tcreate "good" = some (Proj.mk tpj 0 none).c_proj
    ∧ (tcreate_crs "A" "B" none).map tnormalize
        = some (Proj.mk (tnormalize tpj) 0 (some none)).c_proj := by
  have h := axis_normalization_exactly_for_known_crs tcreate tcreate_crs tnormalize
    "good" "A" "B" none (by decide) (by decide) (by decide)
  exact ⟨h.1 (Proj.mk tpj 0 none) rfl,
    h.2 (Proj.mk (tnormalize tpj) 0 (some none)) rfl⟩

/-- C8: on any engine produced by `Proj::new` — which holds no area
reference — `area_set_bbox` is a no-op, not an error: the engine is
unchanged, hence every subsequent `project`/`convert` (single or batch)
behaves identically. -/
theorem area_set_bbox_noop_without_area (create : String → Option PJ)
    (definition : String) (p : Proj) (bbox : Area)
    (h : Proj.new create definition = RunResult.ret (some p)) :
    p.area_set_bbox bbox = p
    ∧ (∀ pt i, (p.area_set_bbox bbox).project pt i = p.project pt i)
    ∧ (∀ pt, (p.area_set_bbox bbox).convert pt = p.convert pt)
    ∧ (∀ pts i, (p.area_set_bbox bbox).project_array pts i = p.project_array pts i)
    ∧ (∀ pts, (p.area_set_bbox bbox).convert_array pts = p.convert_array pts) := by
  have harea : p.area = none := by
    unfold Proj.new at h
    cases hcs : cstring_new definition with
    | none => rw [hcs] at h; exact RunResult.noConfusion h
    | some s =>
      rw [hcs] at h
      cases hc : create definition with
      | none =>
        rw [hc] at h
        injection h with h1
        exact Option.noConfusion h1
      | some pjh =>
        rw [hc] at h
        injection h with h1
        injection h1 with h2
        rw [← h2]
  have hnoop : p.area_set_bbox bbox = p := by
    unfold Proj.area_set_bbox
    rw [harea]
  exact ⟨hnoop, fun pt i => by rw [hnoop], fun pt => by rw [hnoop],
    fun pts i => by rw [hnoop], fun pts => by rw [hnoop]⟩

/-- Witness for C8: on the concrete engine built by `Proj.new` from
"good", setting a bounding box changes nothing. -/
theorem area_set_bbox_noop_without_area_witness :
    (Proj.mk tpj 0 none).area_set_bbox tbbox = Proj.mk tpj 0 none
    ∧ ((Proj.mk tpj 0 none).area_set_bbox tbbox).project (Point.mk 0 0) false
      = (Proj.mk tpj 0 none).project (Point.mk 0 0) false := by
  have h := area_set_bbox_noop_without_area tcreate "good" (Proj.mk tpj 0 none) tbbox rfl
  exact ⟨h.1, h.2.1 (Point.mk 0 0) false⟩

/-- C10: a definition string with an interior NUL byte makes `Proj::new`
panic via `CString::new(...).unwrap()` instead of returning `None`, and
likewise `new_known_crs` panics when its from-string, or its to-string
(with a NUL-free from-string), contains an interior NUL. -/
theorem construction_panics_on_interior_nul (create : String → Option PJ)
    (create_crs : String → String → Option Area → Option PJ) (normalize : PJ → PJ)
    (definition from1 to1 from2 to2 : String) (area : Option Area)
    (hd : contains_nul definition = true)
    (hf1 : contains_nul from1 = true)
    (hf2 : contains_nul from2 = false) (ht2 : contains_nul to2 = true) :
    Proj.new create definition = RunResult.panicked unwrap_panic_msg
    ∧ Proj.new_known_crs create_crs normalize from1 to1 area
        = RunResult.panicked unwrap_panic_msg
    ∧ Proj.new_known_crs create_crs normalize from2 to2 area
        = RunResult.panicked unwrap_panic_msg := by
  have h1 : cstring_new definition = none := by simp [cstring_new, hd]
  have h2 : cstring_new from1 = none := by simp [cstring_new, hf1]
  have h3 : cstring_new from2 = some from2 := by simp [cstring_new, hf2]
  have h4 : cstring_new to2 = none := by simp [cstring_new, ht2]
  refine ⟨?_, ?_, ?_⟩
  · unfold Proj.new
    rw [h1]
  · unfold Proj.new_known_crs
    rw [h2]
  · unfold Proj.new_known_crs
    rw [h3, h4]

/-- Witness for C10: the concrete NUL-carrying string panics in all three
construction positions. -/
theorem construction_panics_on_interior_nul_witness :
    Proj.new tcreate nul_string = RunResult.panicked unwrap_panic_msg
    ∧ Proj.new_known_crs tcreate_crs tnormalize nul_string "B" none
        = RunResult.panicked unwrap_panic_msg
    ∧ Proj.new_known_crs tcreate_crs tnormalize "A" nul_string none
        = RunResult.panicked unwrap_panic_msg := by
  exact construction_panics_on_interior_nul tcreate tcreate_crs tnormalize
    nul_string nul_string "B" "A" nul_string none
    (by decide) (by decide) (by decide) (by decide)

end RustProj
